import Mathlib

/-!
# ADC demo (demos/adc/main.cc): deadline loop, miss recovery and reporting task

The main thread of the demo is embedded as a step machine over explicit
program points; every value the thread reads from the kernel or the board
(tick counter, realtime counter, button line, USB state) is supplied by an
environment record, one per step.  Tick arithmetic is on `Nat` reduced
modulo `2 ^ w`, where `w` is the width of `systime_t`.
-/

namespace Adc

/-! ## Tick arithmetic -/

/-- Addition of two `systime_t` values (`deadline += loop_time`). -/
def systime_add (w a b : Nat) : Nat := (a + b) % 2 ^ w

/-- Subtraction of two `systime_t` values, stored back in a `systime_t`
(`deadline - chVTGetSystemTimeX()`). -/
def systime_sub (w a b : Nat) : Nat := (a % 2 ^ w + (2 ^ w - b % 2 ^ w)) % 2 ^ w

/-! ## Build-time configuration -/

/-- Values fixed by headers that are not part of the demo sources: the width
of `systime_t`, the value of `MS2ST(1)` and the conversion
`RTC2US(STM32_SYSCLK, _)`. -/
structure Config where
  w : Nat
  ms2st_1 : Nat
  rtc2us : Nat → Nat

/-- The constant `loop_time = MS2ST(1)`, held in a `systime_t`. -/
def loop_time (cfg : Config) : Nat := cfg.ms2st_1 % 2 ^ cfg.w

/-! ## Transport -/

/-- One `chprintf` call on the serial-over-USB stream: format string and
arguments. -/
structure Chprintf where
  fmt : String
  args : List Nat
  deriving DecidableEq, Repr

/-- Readiness test of the reporting task:
`SDU1.config->usbp->state == USB_ACTIVE || SDU1.state == SDU_READY`. -/
def transportReady (usbActive sduReady : Bool) : Bool := usbActive || sduReady

/-! ## Main thread -/

/-- Program points of the body of the `while (true)` of `main`. -/
inductive Pc where
  /-- Lines 185-188: read counter, advance deadline, start conversion. -/
  | loopTop
  /-- Lines 193-201: the locked sleep-or-miss decision. -/
  | decide
  /-- Lines 206-209: the two diagnostics of a missed cycle. -/
  | report
  /-- Lines 210-212: one evaluation of the button poll condition. -/
  | poll
  /-- Line 213: deadline reset after the button was seen pressed. -/
  | resync
  deriving DecidableEq, Repr

/-- What the main thread reads from outside during one step. -/
structure Env where
  /-- Value of `chVTGetSystemTimeX()`. -/
  systime : Nat
  /-- First `chSysGetRealtimeCounterX()` of the cycle. -/
  rtc0 : Nat
  /-- Second `chSysGetRealtimeCounterX()` of the cycle. -/
  rtc1 : Nat
  /-- Value of `palReadLine(LINE_BUTTON)`; the button is active low. -/
  button : Bool
  /-- Whether `SDU1.config->usbp->state == USB_ACTIVE`. -/
  usbActive : Bool
  /-- Whether `SDU1.state == SDU_READY`. -/
  sduReady : Bool
  deriving DecidableEq, Repr

/-- Locals of `main` together with the observable effects of the thread. -/
structure MainState where
  pc : Pc
  start : Nat
  dt : Nat
  deadline : Nat
  miss : Bool
  /-- Number of `adcStartConversion` calls made so far. -/
  conversions : Nat
  /-- Arguments of the `chThdSleepS` calls made so far, oldest first. -/
  sleeps : List Nat
  /-- Number of `chThdSleepMilliseconds(10)` calls made so far. -/
  pollSleeps : Nat
  /-- The `chprintf` calls made on `SDU1` so far, oldest first. -/
  writes : List Chprintf
  deriving DecidableEq, Repr

/-- The value `sleep_time` of line 195. -/
def sleep_time (cfg : Config) (deadline now : Nat) : Nat :=
  systime_sub cfg.w deadline now

/-- One step of the main thread. -/
def step (cfg : Config) (e : Env) (s : MainState) : MainState :=
  match s.pc with
  | .loopTop =>
      { s with
        start := e.rtc0 % 2 ^ 32
        deadline := systime_add cfg.w s.deadline (loop_time cfg)
        conversions := s.conversions + 1
        dt := (e.rtc1 % 2 ^ 32 + (2 ^ 32 - e.rtc0 % 2 ^ 32)) % 2 ^ 32
        pc := .decide }
  | .decide =>
      if 0 < sleep_time cfg s.deadline e.systime
          ∧ sleep_time cfg s.deadline e.systime < loop_time cfg then
        { s with
          miss := false
          sleeps := s.sleeps ++ [sleep_time cfg s.deadline e.systime]
          pc := .loopTop }
      else
        { s with miss := true, pc := .report }
  | .report =>
      { s with
        writes := s.writes ++
          [⟨"loop time was: %d us\r\n", [cfg.rtc2us s.dt]⟩,
           ⟨"Press button to continue.\r\n", []⟩]
        pc := .poll }
  | .poll =>
      if e.button then
        { s with pollSleeps := s.pollSleeps + 1, pc := .poll }
      else
        { s with pc := .resync }
  | .resync =>
      { s with deadline := e.systime % 2 ^ cfg.w, pc := .loopTop }

/-- The main thread run over a sequence of readings, one per step. -/
def run (cfg : Config) : List Env → MainState → MainState
  | [], s => s
  | e :: es, s => run cfg es (step cfg e s)

/-- Lines 185-201: one pass from the top of the loop through the decision. -/
def cycle (cfg : Config) (e : Env × Env) (s : MainState) : MainState :=
  step cfg e.2 (step cfg e.1 s)

/-- Consecutive passes through lines 185-201, as long as none is a miss. -/
def cycles (cfg : Config) : List (Env × Env) → MainState → MainState
  | [], s => s
  | e :: es, s => cycles cfg es (cycle cfg e s)

/-- Whether every one of the passes run by `cycles` ends without a miss. -/
def noMiss (cfg : Config) : List (Env × Env) → MainState → Bool
  | [], _ => true
  | e :: es, s => !(cycle cfg e s).miss && noMiss cfg es (cycle cfg e s)

/-- State of `main` on entry to the loop: `deadline = chVTGetSystemTimeX()`. -/
def enterLoop (cfg : Config) (now : Nat) : MainState :=
  { pc := .loopTop, start := 0, dt := 0, deadline := now % 2 ^ cfg.w, miss := false,
    conversions := 0, sleeps := [], pollSleeps := 0, writes := [] }

/-! ## Event flags and the interrupt callbacks -/

/-- Modelled from the spec: the kernel macro `EVENT_MASK` is not part of the demo
sources.  The spec describes the flags as independent one-bit signals of a bitset,
so event `eid` is bit `eid`. -/
def EVENT_MASK (eid : Nat) : Nat := 2 ^ eid

/-- The constant `evt_adc_complete = EVENT_MASK(0)` (`data-ready` in the spec). -/
def evt_adc_complete : Nat := EVENT_MASK 0

/-- The constant `evt_adc_error = EVENT_MASK(1)` (`error` in the spec). -/
def evt_adc_error : Nat := EVENT_MASK 1

/-- Modelled from the spec: the kernel constant `ALL_EVENTS` is not part of the demo
sources; it is the mask that requests every flag of a 32-bit flag set. -/
def ALL_EVENTS : Nat := 2 ^ 32 - 1

/-- Modelled from the spec: the kernel event source with its listener
(`event_source_t`, `event_listener_t`) is not part of the demo sources.  Section 4.2
of the spec describes it as a set of flags that are OR-combined until consumed;
section 3 adds that a flag raised before a listener registers is lost. -/
structure EventChannel where
  /-- Whether a listener has been registered. -/
  registered : Bool
  /-- Flags raised and not yet consumed. -/
  pending : Nat
  deriving DecidableEq, Repr

/-- Modelled from the spec: `chEvtObjectInit` is kernel code outside the demo
sources; the channel starts with no listener and no flag. -/
def chEvtObjectInit : EventChannel := ⟨false, 0⟩

/-- Modelled from the spec: `chEvtRegisterMask` is kernel code outside the demo
sources; the spec gives registration the single role of making later raises
observable. -/
def chEvtRegisterMask (ch : EventChannel) (_events : Nat) : EventChannel :=
  { ch with registered := true }

/-- Modelled from the spec: `chEvtBroadcastFlagsI` is kernel code outside the demo
sources; it is `raise(flagSet)` of the spec: the flags are OR-combined into the
pending set, and lost when no listener is registered. -/
def chEvtBroadcastFlagsI (ch : EventChannel) (flags : Nat) : EventChannel :=
  if ch.registered then { ch with pending := ch.pending ||| flags } else ch

/-- Modelled from the spec: `chEvtWaitAny` is kernel code outside the demo sources;
it is `waitAny(mask)` of the spec: with no requested flag pending the caller blocks
(`none`), otherwise the pending requested flags are returned and exactly those bits
are cleared. -/
def chEvtWaitAny (mask : Nat) (ch : EventChannel) : Option (Nat × EventChannel) :=
  if ch.pending &&& mask = 0 then none
  else some (ch.pending &&& mask, { ch with pending := ch.pending ^^^ (ch.pending &&& mask) })

/-- The error callback of the conversion group (lines 44-50). -/
def adcerrorcallback (adc_event_source : EventChannel) : EventChannel :=
  chEvtBroadcastFlagsI adc_event_source evt_adc_error

/-- The completion callback of the conversion group (lines 51-58). -/
def adccallback (adc_event_source : EventChannel) : EventChannel :=
  chEvtBroadcastFlagsI adc_event_source evt_adc_complete

/-- An interrupt of the ADC driver: which of the two callbacks it invokes. -/
inductive AdcIsr where
  | complete
  | error
  deriving DecidableEq, Repr

/-- The callback run by one interrupt. -/
def AdcIsr.fire : AdcIsr → EventChannel → EventChannel
  | .complete, ch => adccallback ch
  | .error, ch => adcerrorcallback ch

/-- The flag passed to the broadcast by the callback of one interrupt. -/
def AdcIsr.flag : AdcIsr → Nat
  | .complete => evt_adc_complete
  | .error => evt_adc_error

/-- A sequence of interrupts, oldest first, applied to the event source. -/
def fireAll : List AdcIsr → EventChannel → EventChannel
  | [], ch => ch
  | i :: is, ch => fireAll is (i.fire ch)

/-- The OR of the flags raised by a sequence of interrupts. -/
def raisedFlags : List AdcIsr → Nat
  | [] => 0
  | i :: is => i.flag ||| raisedFlags is

/-! ## Reporting task -/

/-- Lines 128-140 of `SerialThread`: the reaction to the mask `evt` returned by the
wait, given the two USB state tests and the sample buffer. -/
def SerialThread_react (usbActive sduReady : Bool) (evt : Nat) (adc_buffer : Fin 3 → Nat)
    (writes : List Chprintf) : List Chprintf :=
  if usbActive || sduReady then
    let writes1 :=
      if evt &&& evt_adc_error ≠ 0 then
        writes ++ [⟨"ERROR in ADC conversion.\r\n", []⟩]
      else writes
    if evt &&& evt_adc_complete ≠ 0 then
      writes1 ++ [⟨"%d\t%d\t%d\r\n", [adc_buffer 0, adc_buffer 1, adc_buffer 2]⟩]
    else writes1
  else writes

/-- One iteration of the `while (true)` of `SerialThread` (lines 125-141): the wait,
then the reaction.  `none` when the wait blocks. -/
def SerialThread_loop (usbActive sduReady : Bool) (adc_buffer : Fin 3 → Nat)
    (st : EventChannel × List Chprintf) : Option (EventChannel × List Chprintf) :=
  match chEvtWaitAny ALL_EVENTS st.1 with
  | none => none
  | some (evt, ch) => some (ch, SerialThread_react usbActive sduReady evt adc_buffer st.2)

/-! ## Concrete configurations and readings -/

/-- A build with a 1 kHz tick and 32-bit `systime_t`: `MS2ST(1)` is 1 tick. -/
def tick1kHz : Config := ⟨32, 1, fun dt => dt / 168⟩

/-- A build with a 10 kHz tick and 16-bit `systime_t`: `MS2ST(1)` is 10 ticks. -/
def tick10kHz : Config := ⟨16, 10, fun dt => dt / 168⟩

/-- A reading with tick counter `now`, button not pressed, USB neither active nor
ready. -/
def reading (now : Nat) : Env := ⟨now, 0, 0, true, false, false⟩

/-- A reading with tick counter `now` and the button pressed, USB neither active nor
ready. -/
def pressed (now : Nat) : Env := ⟨now, 0, 0, false, false, false⟩

/-! ## Lemmas on tick arithmetic -/

theorem systime_add_lt (w a b : Nat) : systime_add w a b < 2 ^ w :=
  Nat.mod_lt _ (Nat.pos_pow_of_pos w (by decide))

theorem systime_sub_lt (w a b : Nat) : systime_sub w a b < 2 ^ w :=
  Nat.mod_lt _ (Nat.pos_pow_of_pos w (by decide))

/-- The stored difference is the integer difference reduced modulo `2 ^ w`. -/
theorem systime_sub_int (w a b : Nat) :
    ((systime_sub w a b : Nat) : Int) = ((a : Int) - (b : Int)) % ((2 ^ w : Nat) : Int) := by
  unfold systime_sub
  have hm : 0 < 2 ^ w := Nat.pos_pow_of_pos w (by decide)
  generalize 2 ^ w = m at hm ⊢
  have hb : b % m ≤ m := (Nat.mod_lt _ hm).le
  rw [Int.natCast_mod, Int.natCast_add, Int.natCast_sub hb, Int.natCast_mod, Int.natCast_mod]
  rw [Int.emod_eq_emod_iff_emod_sub_eq_zero]
  apply Int.emod_eq_zero_of_dvd
  refine ⟨1 - (a : Int) / m + (b : Int) / m, ?_⟩
  rw [Int.emod_def, Int.emod_def]
  ring

/-- A reading `k` ticks past the deadline yields the stored difference `2 ^ w - k`. -/
theorem systime_sub_past (w d k : Nat) (hd : d < 2 ^ w) (hk : 1 ≤ k) (hk2 : k ≤ 2 ^ w) :
    systime_sub w d (systime_add w d k) = 2 ^ w - k := by
  unfold systime_sub systime_add
  generalize 2 ^ w = m at hd hk2 ⊢
  rw [Nat.mod_eq_of_lt hd, Nat.mod_mod]
  rcases Nat.lt_or_ge (d + k) m with h | h
  · rw [Nat.mod_eq_of_lt h]
    have : d + (m - (d + k)) = m - k := by omega
    rw [this]; exact Nat.mod_eq_of_lt (by omega)
  · have h2 : (d + k) % m = d + k - m := by
      rw [Nat.mod_eq_sub_mod h]; exact Nat.mod_eq_of_lt (by omega)
    rw [h2]
    have : d + (m - (d + k - m)) = (m - k) + m := by omega
    rw [this, Nat.add_mod_right]; exact Nat.mod_eq_of_lt (by omega)

/-- Advancing a deadline `n` times by `p` equals one advance by `n * p`. -/
theorem systime_add_iterate (w d p n : Nat) :
    (systime_add w d p + n * p) % 2 ^ w = (d + (n + 1) * p) % 2 ^ w := by
  unfold systime_add
  rw [Nat.mod_add_mod]
  congr 1; ring

/-! ## Lemmas on single steps -/

theorem step_loopTop (cfg : Config) (e : Env) (s : MainState) (h : s.pc = .loopTop) :
    step cfg e s =
      { s with
        start := e.rtc0 % 2 ^ 32
        deadline := systime_add cfg.w s.deadline (loop_time cfg)
        conversions := s.conversions + 1
        dt := (e.rtc1 % 2 ^ 32 + (2 ^ 32 - e.rtc0 % 2 ^ 32)) % 2 ^ 32
        pc := .decide } := by
  simp [step, h]

theorem step_decide_sleep (cfg : Config) (e : Env) (s : MainState) (h : s.pc = .decide)
    (hs : 0 < sleep_time cfg s.deadline e.systime
      ∧ sleep_time cfg s.deadline e.systime < loop_time cfg) :
    step cfg e s =
      { s with
        miss := false
        sleeps := s.sleeps ++ [sleep_time cfg s.deadline e.systime]
        pc := .loopTop } := by
  simp only [step, h, if_pos hs]

theorem step_decide_miss (cfg : Config) (e : Env) (s : MainState) (h : s.pc = .decide)
    (hs : ¬ (0 < sleep_time cfg s.deadline e.systime
      ∧ sleep_time cfg s.deadline e.systime < loop_time cfg)) :
    step cfg e s = { s with miss := true, pc := .report } := by
  simp only [step, h, if_neg hs]

theorem step_report (cfg : Config) (e : Env) (s : MainState) (h : s.pc = .report) :
    step cfg e s =
      { s with
        writes := s.writes ++
          [⟨"loop time was: %d us\r\n", [cfg.rtc2us s.dt]⟩,
           ⟨"Press button to continue.\r\n", []⟩]
        pc := .poll } := by
  simp [step, h]

theorem step_poll_wait (cfg : Config) (e : Env) (s : MainState) (h : s.pc = .poll)
    (hb : e.button = true) :
    step cfg e s = { s with pollSleeps := s.pollSleeps + 1, pc := .poll } := by
  simp [step, h, hb]

theorem step_poll_ack (cfg : Config) (e : Env) (s : MainState) (h : s.pc = .poll)
    (hb : e.button = false) :
    step cfg e s = { s with pc := .resync } := by
  simp [step, h, hb]

theorem step_resync (cfg : Config) (e : Env) (s : MainState) (h : s.pc = .resync) :
    step cfg e s = { s with deadline := e.systime % 2 ^ cfg.w, pc := .loopTop } := by
  simp [step, h]

/-- The pass through lines 185-201 when the decision is to sleep. -/
theorem cycle_sleep (cfg : Config) (e : Env × Env) (s : MainState) (h : s.pc = .loopTop)
    (hs : 0 < sleep_time cfg (systime_add cfg.w s.deadline (loop_time cfg)) e.2.systime
      ∧ sleep_time cfg (systime_add cfg.w s.deadline (loop_time cfg)) e.2.systime
          < loop_time cfg) :
    cycle cfg e s =
      { s with
        start := e.1.rtc0 % 2 ^ 32
        deadline := systime_add cfg.w s.deadline (loop_time cfg)
        conversions := s.conversions + 1
        dt := (e.1.rtc1 % 2 ^ 32 + (2 ^ 32 - e.1.rtc0 % 2 ^ 32)) % 2 ^ 32
        miss := false
        sleeps := s.sleeps ++
          [sleep_time cfg (systime_add cfg.w s.deadline (loop_time cfg)) e.2.systime]
        pc := .loopTop } := by
  unfold cycle
  rw [step_loopTop cfg e.1 s h, step_decide_sleep _ _ _ rfl hs]

/-- The pass through lines 185-201 when the decision is a miss. -/
theorem cycle_miss (cfg : Config) (e : Env × Env) (s : MainState) (h : s.pc = .loopTop)
    (hs : ¬ (0 < sleep_time cfg (systime_add cfg.w s.deadline (loop_time cfg)) e.2.systime
      ∧ sleep_time cfg (systime_add cfg.w s.deadline (loop_time cfg)) e.2.systime
          < loop_time cfg)) :
    cycle cfg e s =
      { s with
        start := e.1.rtc0 % 2 ^ 32
        deadline := systime_add cfg.w s.deadline (loop_time cfg)
        conversions := s.conversions + 1
        dt := (e.1.rtc1 % 2 ^ 32 + (2 ^ 32 - e.1.rtc0 % 2 ^ 32)) % 2 ^ 32
        miss := true
        pc := .report } := by
  unfold cycle
  rw [step_loopTop cfg e.1 s h, step_decide_miss _ _ _ rfl hs]

/-! ## Lemmas on runs -/

theorem run_append (cfg : Config) (es fs : List Env) (s : MainState) :
    run cfg (es ++ fs) s = run cfg fs (run cfg es s) := by
  induction es generalizing s with
  | nil => rfl
  | cons e es ih => exact ih (step cfg e s)

/-- A pass through lines 185-201 is two steps of the thread. -/
theorem cycles_eq_run (cfg : Config) (es : List (Env × Env)) (s : MainState) :
    cycles cfg es s = run cfg (es.flatMap fun e => [e.1, e.2]) s := by
  induction es generalizing s with
  | nil => rfl
  | cons e es ih => simpa [cycles, run, cycle] using ih (cycle cfg e s)

/-- A pass that reports no miss took the sleeping branch. -/
theorem cycle_miss_false (cfg : Config) (e : Env × Env) (s : MainState) (h : s.pc = .loopTop) :
    (cycle cfg e s).miss = false ↔
      (0 < sleep_time cfg (systime_add cfg.w s.deadline (loop_time cfg)) e.2.systime
        ∧ sleep_time cfg (systime_add cfg.w s.deadline (loop_time cfg)) e.2.systime
            < loop_time cfg) := by
  constructor
  · intro hm
    by_contra hs
    rw [cycle_miss cfg e s h hs] at hm
    exact Bool.noConfusion hm
  · intro hs
    rw [cycle_sleep cfg e s h hs]

/-- While the button reads high the poll loop only counts its 10 ms sleeps. -/
theorem run_poll_wait (cfg : Config) (es : List Env) (s : MainState) (h : s.pc = .poll)
    (hall : ∀ e ∈ es, e.button = true) :
    run cfg es s = { s with pollSleeps := s.pollSleeps + es.length } := by
  induction es generalizing s with
  | nil => rfl
  | cons e es ih =>
    have hb : e.button = true := hall e (List.mem_cons_self _ _)
    have hrest : ∀ x ∈ es, x.button = true := fun x hx => hall x (List.mem_cons_of_mem _ hx)
    simp only [run]
    rw [step_poll_wait cfg e s h hb, ih _ rfl hrest]
    simp only [List.length_cons]
    have : s.pollSleeps + 1 + es.length = s.pollSleeps + (es.length + 1) := by omega
    rw [this, h]

/-- From the report of a miss through any number of unsuccessful polls. -/
theorem run_stall (cfg : Config) (e0 : Env) (es : List Env) (s : MainState)
    (h : s.pc = .report) (hall : ∀ e ∈ es, e.button = true) :
    run cfg (e0 :: es) s =
      { s with
        writes := s.writes ++
          [⟨"loop time was: %d us\r\n", [cfg.rtc2us s.dt]⟩,
           ⟨"Press button to continue.\r\n", []⟩]
        pollSleeps := s.pollSleeps + es.length
        pc := .poll } := by
  simp only [run]
  rw [step_report cfg e0 s h, run_poll_wait cfg es _ rfl hall]

/-- From the report of a miss to the exit of the poll loop. -/
theorem run_stall_ack (cfg : Config) (e0 : Env) (es : List Env) (eAck : Env) (s : MainState)
    (h : s.pc = .report) (hall : ∀ e ∈ es, e.button = true) (hack : eAck.button = false) :
    run cfg (e0 :: es ++ [eAck]) s =
      { s with
        writes := s.writes ++
          [⟨"loop time was: %d us\r\n", [cfg.rtc2us s.dt]⟩,
           ⟨"Press button to continue.\r\n", []⟩]
        pollSleeps := s.pollSleeps + es.length
        pc := .resync } := by
  rw [run_append, run_stall cfg e0 es s h hall]
  simp only [run]
  rw [step_poll_ack cfg eAck _ rfl hack]

/-- Without a miss the deadline after the passes is the start plus `n` periods. -/
theorem cycles_deadline (cfg : Config) (es : List (Env × Env)) (s : MainState)
    (h : s.pc = .loopTop) (hD : s.deadline < 2 ^ cfg.w) (hno : noMiss cfg es s = true) :
    (cycles cfg es s).deadline = (s.deadline + es.length * loop_time cfg) % 2 ^ cfg.w
      ∧ (cycles cfg es s).pc = .loopTop
      ∧ (cycles cfg es s).conversions = s.conversions + es.length := by
  induction es generalizing s with
  | nil => simp [cycles, h, Nat.mod_eq_of_lt hD]
  | cons e es ih =>
    simp only [noMiss, Bool.and_eq_true, Bool.not_eq_true'] at hno
    have hs := (cycle_miss_false cfg e s h).1 hno.1
    have hc := cycle_sleep cfg e s h hs
    have hpc : (cycle cfg e s).pc = .loopTop := by rw [hc]
    have hdl : (cycle cfg e s).deadline = systime_add cfg.w s.deadline (loop_time cfg) := by
      rw [hc]
    have hcv : (cycle cfg e s).conversions = s.conversions + 1 := by rw [hc]
    have hlt : (cycle cfg e s).deadline < 2 ^ cfg.w := by
      rw [hdl]; exact systime_add_lt _ _ _
    obtain ⟨i1, i2, i3⟩ := ih (cycle cfg e s) hpc hlt hno.2
    refine ⟨?_, i2, ?_⟩
    · simp only [cycles, List.length_cons]
      rw [i1, hdl, systime_add_iterate]
    · simp only [cycles, List.length_cons]
      rw [i3, hcv]; omega

/-- Whatever the decision, a pass advances the deadline by one period and starts one
conversion. -/
theorem deadline_step_aux (cfg : Config) (e : Env × Env) (s : MainState)
    (h : s.pc = .loopTop) :
    (cycle cfg e s).deadline = systime_add cfg.w s.deadline (loop_time cfg)
      ∧ (cycle cfg e s).conversions = s.conversions + 1 := by
  by_cases hs : 0 < sleep_time cfg (systime_add cfg.w s.deadline (loop_time cfg)) e.2.systime
      ∧ sleep_time cfg (systime_add cfg.w s.deadline (loop_time cfg)) e.2.systime
          < loop_time cfg
  · rw [cycle_sleep cfg e s h hs]; exact ⟨rfl, rfl⟩
  · rw [cycle_miss cfg e s h hs]; exact ⟨rfl, rfl⟩

/-- A reading taken in the tick of the starting deadline is a full period before the
next deadline: the stored difference is the period itself. -/
theorem systime_sub_add_self (w d p : Nat) (hd : d < 2 ^ w) (hp : p < 2 ^ w) :
    systime_sub w (systime_add w d p) d = p := by
  unfold systime_sub systime_add
  generalize 2 ^ w = m at hd hp ⊢
  rw [Nat.mod_mod, Nat.mod_eq_of_lt hd]
  rcases Nat.lt_or_ge (d + p) m with h | h
  · rw [Nat.mod_eq_of_lt h]
    have : d + p + (m - d) = p + m := by omega
    rw [this, Nat.add_mod_right]; exact Nat.mod_eq_of_lt hp
  · have h2 : (d + p) % m = d + p - m := by
      rw [Nat.mod_eq_sub_mod h]; exact Nat.mod_eq_of_lt (by omega)
    rw [h2]
    have : d + p - m + (m - d) = p := by omega
    rw [this]; exact Nat.mod_eq_of_lt hp

/-- The boundary of the guard of line 196: whatever the period, a pass whose decision
reads the tick of its starting deadline, a full period before the next deadline, takes
the miss branch. -/
theorem same_tick_pass_misses (cfg : Config) (s : MainState) (e : Env × Env)
    (h : s.pc = .loopTop) (hD : s.deadline < 2 ^ cfg.w) (hnow : e.2.systime = s.deadline) :
    sleep_time cfg (systime_add cfg.w s.deadline (loop_time cfg)) e.2.systime = loop_time cfg
      ∧ (cycle cfg e s).sleeps = s.sleeps
      ∧ (cycle cfg e s).miss = true := by
  have hp : loop_time cfg < 2 ^ cfg.w := Nat.mod_lt _ (Nat.pos_pow_of_pos cfg.w (by decide))
  have hst : sleep_time cfg (systime_add cfg.w s.deadline (loop_time cfg)) e.2.systime
      = loop_time cfg := by
    unfold sleep_time
    rw [hnow]
    exact systime_sub_add_self cfg.w s.deadline (loop_time cfg) hD hp
  have hs : ¬ (0 < sleep_time cfg (systime_add cfg.w s.deadline (loop_time cfg)) e.2.systime
      ∧ sleep_time cfg (systime_add cfg.w s.deadline (loop_time cfg)) e.2.systime
          < loop_time cfg) := by
    rw [hst]; omega
  refine ⟨hst, ?_⟩
  rw [cycle_miss cfg e s h hs]
  exact ⟨rfl, rfl⟩

/-! ## Lemmas on flag sets -/

/-- Clearing the returned bits leaves no requested bit pending. -/
theorem xor_and_mask (p m : Nat) : (p ^^^ (p &&& m)) &&& m = 0 := by
  apply Nat.eq_of_testBit_eq
  intro i
  simp only [Nat.testBit_and, Nat.testBit_xor, Nat.zero_testBit]
  cases p.testBit i <;> cases m.testBit i <;> rfl

/-- Flags OR-ed onto a set with no requested bit are what the mask selects. -/
theorem or_and_mask (p f m : Nat) (h : p &&& m = 0) : (p ||| f) &&& m = f &&& m := by
  apply Nat.eq_of_testBit_eq
  intro i
  have hi : (p &&& m).testBit i = false := by rw [h]; exact Nat.zero_testBit i
  simp only [Nat.testBit_and, Nat.testBit_or] at hi ⊢
  revert hi
  cases p.testBit i <;> cases m.testBit i <;> simp

/-- The flags raised by a sequence of interrupts, by which callbacks occur in it. -/
theorem raisedFlags_eq (is : List AdcIsr) :
    raisedFlags is =
      (if AdcIsr.complete ∈ is then 1 else 0) ||| (if AdcIsr.error ∈ is then 2 else 0) := by
  induction is with
  | nil => rfl
  | cons i is ih =>
    simp only [raisedFlags, ih, List.mem_cons]
    cases i <;> by_cases hc : AdcIsr.complete ∈ is <;> by_cases he : AdcIsr.error ∈ is <;>
      simp [hc, he, AdcIsr.flag, evt_adc_complete, evt_adc_error, EVENT_MASK]

theorem raisedFlags_and_all (is : List AdcIsr) : raisedFlags is &&& ALL_EVENTS = raisedFlags is := by
  rw [raisedFlags_eq]
  by_cases hc : AdcIsr.complete ∈ is <;> by_cases he : AdcIsr.error ∈ is <;>
    simp only [hc, he, if_true, if_false, ALL_EVENTS] <;> decide

theorem raisedFlags_ne_zero (is : List AdcIsr) (h : is ≠ []) : raisedFlags is ≠ 0 := by
  rw [raisedFlags_eq]
  cases is with
  | nil => exact absurd rfl h
  | cons i is =>
    cases i <;> by_cases hc : AdcIsr.complete ∈ is <;> by_cases he : AdcIsr.error ∈ is <;>
      simp [hc, he]

/-- With a listener registered, interrupts OR their flags into the pending set. -/
theorem fireAll_registered (is : List AdcIsr) (ch : EventChannel) (h : ch.registered = true) :
    fireAll is ch = { ch with pending := ch.pending ||| raisedFlags is } := by
  induction is generalizing ch with
  | nil => simp [fireAll, raisedFlags]
  | cons i is ih =>
    have hf : i.fire ch = { ch with pending := ch.pending ||| i.flag } := by
      cases i <;>
        simp [AdcIsr.fire, AdcIsr.flag, adccallback, adcerrorcallback, chEvtBroadcastFlagsI, h]
    simp only [fireAll, raisedFlags]
    rw [hf, ih ⟨ch.registered, ch.pending ||| i.flag⟩ h, Nat.or_assoc]

/-- C1: in a pass of the main loop that starts with deadline `s.deadline`, let
`sleepTime` be `(deadline + loop_time) - now` in `systime_t` arithmetic, `now` being
the tick read at the decision.  If `0 < sleepTime < loop_time` the pass calls
`chThdSleepS(sleepTime)` once and is not a miss; in every other case it makes no sleep
call and is a miss; hence it is not a miss exactly when `0 < sleepTime < loop_time`.
Nothing is assumed on whether `deadline + loop_time` wraps. -/
theorem cycle_sleeps_iff_in_window (cfg : Config) (s : MainState) (e : Env × Env)
    (h : s.pc = .loopTop) :
    ((0 < systime_sub cfg.w (systime_add cfg.w s.deadline (loop_time cfg)) e.2.systime
        ∧ systime_sub cfg.w (systime_add cfg.w s.deadline (loop_time cfg)) e.2.systime
            < loop_time cfg) →
      (cycle cfg e s).sleeps = s.sleeps ++
          [systime_sub cfg.w (systime_add cfg.w s.deadline (loop_time cfg)) e.2.systime]
        ∧ (cycle cfg e s).miss = false)
    ∧ (¬ (0 < systime_sub cfg.w (systime_add cfg.w s.deadline (loop_time cfg)) e.2.systime
        ∧ systime_sub cfg.w (systime_add cfg.w s.deadline (loop_time cfg)) e.2.systime
            < loop_time cfg) →
      (cycle cfg e s).sleeps = s.sleeps ∧ (cycle cfg e s).miss = true)
    ∧ ((cycle cfg e s).miss = false ↔
        (0 < systime_sub cfg.w (systime_add cfg.w s.deadline (loop_time cfg)) e.2.systime
        ∧ systime_sub cfg.w (systime_add cfg.w s.deadline (loop_time cfg)) e.2.systime
            < loop_time cfg)) := by
  refine ⟨fun hs => ?_, fun hs => ?_, cycle_miss_false cfg e s h⟩
  · rw [cycle_sleep cfg e s h hs]; exact ⟨rfl, rfl⟩
  · rw [cycle_miss cfg e s h hs]; exact ⟨rfl, rfl⟩

/-- Witness for C1 with a wrapping deadline: 16-bit ticks, period 10, deadline 65530
(the next deadline wraps to 4), tick 65535 at the decision: the pass sleeps 5 ticks. -/
theorem cycle_sleeps_iff_in_window_witness :
    (enterLoop tick10kHz 65530).pc = .loopTop
      ∧ (cycle tick10kHz (reading 65530, reading 65535) (enterLoop tick10kHz 65530)).sleeps = [5]
      ∧ (cycle tick10kHz (reading 65530, reading 65535) (enterLoop tick10kHz 65530)).miss
          = false :=
  ⟨rfl, (cycle_sleeps_iff_in_window tick10kHz (enterLoop tick10kHz 65530)
    (reading 65530, reading 65535) rfl).1 (by decide)⟩

/-- C2: starting at the top of the loop with deadline `D0`, after `N` consecutive
passes none of which is a miss the deadline is `(D0 + N * loop_time) mod 2 ^ w`,
whatever ticks and counters were read; and every single pass, a miss included, leaves
the deadline at the previous deadline plus `loop_time` when it reaches the end of the
locked decision. -/
theorem deadline_advances_by_period (cfg : Config) (s : MainState)
    (es : List (Env × Env)) (h : s.pc = .loopTop) (hD : s.deadline < 2 ^ cfg.w) :
    (noMiss cfg es s = true →
      (cycles cfg es s).deadline = (s.deadline + es.length * loop_time cfg) % 2 ^ cfg.w)
    ∧ (∀ e : Env × Env,
        (cycle cfg e s).deadline = (s.deadline + loop_time cfg) % 2 ^ cfg.w) := by
  refine ⟨fun hno => (cycles_deadline cfg es s h hD hno).1, fun e => ?_⟩
  unfold cycle
  rw [step_loopTop cfg e.1 s h]
  by_cases hs : 0 < sleep_time cfg (systime_add cfg.w s.deadline (loop_time cfg)) e.2.systime
      ∧ sleep_time cfg (systime_add cfg.w s.deadline (loop_time cfg)) e.2.systime
          < loop_time cfg
  · rw [step_decide_sleep _ _ _ rfl hs]; rfl
  · rw [step_decide_miss _ _ _ rfl hs]; rfl

/-- Witness for C2: three passes without a miss from deadline 65530 with 16-bit ticks
and period 10; the deadline ends at (65530 + 30) mod 65536 = 24. -/
theorem deadline_advances_by_period_witness :
    (enterLoop tick10kHz 65530).pc = .loopTop
      ∧ (enterLoop tick10kHz 65530).deadline < 2 ^ tick10kHz.w
      ∧ noMiss tick10kHz
          [(reading 0, reading 65531), (reading 0, reading 5), (reading 0, reading 23)]
          (enterLoop tick10kHz 65530) = true
      ∧ (cycles tick10kHz
          [(reading 0, reading 65531), (reading 0, reading 5), (reading 0, reading 23)]
          (enterLoop tick10kHz 65530)).deadline = 24 :=
  ⟨rfl, by decide, by decide,
    (deadline_advances_by_period tick10kHz (enterLoop tick10kHz 65530)
      [(reading 0, reading 65531), (reading 0, reading 5), (reading 0, reading 23)]
      rfl (by decide)).1 (by decide)⟩

/-- C3: for a period of at least one tick, when the tick read at the decision is `k`
ticks past the next deadline with `1 ≤ k ≤ 2 ^ w - loop_time`, the stored difference
is `2 ^ w - k` (the unsigned reading of `-k`), the pass makes no sleep call, sets
`miss`, and the thread goes on to the diagnostics and from there into the button
poll without starting a conversion. -/
theorem past_deadline_is_miss (cfg : Config) (s : MainState) (e : Env × Env) (e3 : Env)
    (k : Nat) (h : s.pc = .loopTop) (hp : 1 ≤ loop_time cfg) (hk1 : 1 ≤ k)
    (hk2 : k ≤ 2 ^ cfg.w - loop_time cfg)
    (hnow : e.2.systime
      = systime_add cfg.w (systime_add cfg.w s.deadline (loop_time cfg)) k) :
    sleep_time cfg (systime_add cfg.w s.deadline (loop_time cfg)) e.2.systime = 2 ^ cfg.w - k
      ∧ (cycle cfg e s).sleeps = s.sleeps
      ∧ (cycle cfg e s).miss = true
      ∧ (cycle cfg e s).pc = .report
      ∧ (step cfg e3 (cycle cfg e s)).pc = .poll
      ∧ (step cfg e3 (cycle cfg e s)).sleeps = s.sleeps
      ∧ (step cfg e3 (cycle cfg e s)).conversions = (cycle cfg e s).conversions := by
  have hst : sleep_time cfg (systime_add cfg.w s.deadline (loop_time cfg)) e.2.systime
      = 2 ^ cfg.w - k := by
    unfold sleep_time
    rw [hnow]
    exact systime_sub_past cfg.w _ k (systime_add_lt _ _ _) hk1 (by omega)
  have hs : ¬ (0 < sleep_time cfg (systime_add cfg.w s.deadline (loop_time cfg)) e.2.systime
      ∧ sleep_time cfg (systime_add cfg.w s.deadline (loop_time cfg)) e.2.systime
          < loop_time cfg) := by
    rw [hst]; omega
  refine ⟨hst, ?_⟩
  rw [cycle_miss cfg e s h hs, step_report _ _ _ rfl]
  exact ⟨rfl, rfl, rfl, rfl, rfl, rfl⟩

/-- Witness for C3, the case of the spec: period 1 tick, 32-bit ticks, next deadline
1001 and tick 1002 at the decision. -/
theorem past_deadline_is_miss_witness :
    (enterLoop tick1kHz 1000).pc = .loopTop
      ∧ 1 ≤ loop_time tick1kHz
      ∧ 1 ≤ 1
      ∧ 1 ≤ 2 ^ tick1kHz.w - loop_time tick1kHz
      ∧ (reading 1002).systime = systime_add tick1kHz.w
          (systime_add tick1kHz.w (enterLoop tick1kHz 1000).deadline (loop_time tick1kHz)) 1
      ∧ sleep_time tick1kHz
          (systime_add tick1kHz.w (enterLoop tick1kHz 1000).deadline (loop_time tick1kHz))
          (reading 1002).systime = 2 ^ 32 - 1
      ∧ (cycle tick1kHz (reading 1000, reading 1002) (enterLoop tick1kHz 1000)).miss = true :=
  ⟨rfl, by decide, by decide, by decide, by decide,
    (past_deadline_is_miss tick1kHz (enterLoop tick1kHz 1000) (reading 1000, reading 1002)
      (reading 1002) 1 rfl (by decide) (by decide) (by decide) (by decide)).1,
    (past_deadline_is_miss tick1kHz (enterLoop tick1kHz 1000) (reading 1000, reading 1002)
      (reading 1002) 1 rfl (by decide) (by decide) (by decide) (by decide)).2.2.1⟩

/-- C4: the code fails the claim at its own input.  With a period of 1 tick, deadline
1000 on entry (next deadline 1001) and tick 1000 read at the decision, one tick before
the deadline, `sleep_time` is 1, yet the pass makes no sleep call, sets `miss` and
goes to the diagnostics of a missed deadline. -/
theorem one_tick_period_misses :
    loop_time tick1kHz = 1
      ∧ sleep_time tick1kHz
          (systime_add tick1kHz.w (enterLoop tick1kHz 1000).deadline (loop_time tick1kHz))
          (reading 1000).systime = 1
      ∧ (cycle tick1kHz (reading 1000, reading 1000) (enterLoop tick1kHz 1000)).sleeps = []
      ∧ (cycle tick1kHz (reading 1000, reading 1000) (enterLoop tick1kHz 1000)).miss = true
      ∧ (cycle tick1kHz (reading 1000, reading 1000) (enterLoop tick1kHz 1000)).pc
          = .report := by
  decide

/-! ## Miss recovery -/

/-- C5: let a pass from the top of the loop end in a miss.  Then for every reading
`e0` at the diagnostics, every sequence `es` of polls that read the button high
(whatever ticks they carry) and every poll `eAck` that reads it low, the number of
`adcStartConversion` calls is the same after the miss, after each of the unsuccessful
polls, and at the exit of the poll loop; during the polls the thread stays in the
poll loop, one 10 ms sleep per poll. -/
theorem no_conversion_while_stalled (cfg : Config) (s : MainState) (e : Env × Env)
    (e0 : Env) (es : List Env) (eAck : Env)
    (h : s.pc = .loopTop) (hmiss : (cycle cfg e s).miss = true)
    (hall : ∀ x ∈ es, x.button = true) (hack : eAck.button = false) :
    (run cfg (e0 :: es) (cycle cfg e s)).conversions = (cycle cfg e s).conversions
      ∧ (run cfg (e0 :: es) (cycle cfg e s)).pc = .poll
      ∧ (run cfg (e0 :: es) (cycle cfg e s)).pollSleeps
          = (cycle cfg e s).pollSleeps + es.length
      ∧ (run cfg (e0 :: es ++ [eAck]) (cycle cfg e s)).conversions
          = (cycle cfg e s).conversions
      ∧ (run cfg (e0 :: es ++ [eAck]) (cycle cfg e s)).pc = .resync := by
  have hs : ¬ (0 < sleep_time cfg (systime_add cfg.w s.deadline (loop_time cfg)) e.2.systime
      ∧ sleep_time cfg (systime_add cfg.w s.deadline (loop_time cfg)) e.2.systime
          < loop_time cfg) := by
    intro hs
    rw [(cycle_miss_false cfg e s h).2 hs] at hmiss
    exact Bool.noConfusion hmiss
  have hpc : (cycle cfg e s).pc = .report := by rw [cycle_miss cfg e s h hs]
  rw [run_stall cfg e0 es _ hpc hall, run_stall_ack cfg e0 es eAck _ hpc hall hack]
  exact ⟨rfl, rfl, rfl, rfl, rfl⟩

/-- Witness for C5: period 1 tick, a miss at tick 1002, then three polls with the
button high at ticks 1500, 2000 and 90000 and one poll with the button low. -/
theorem no_conversion_while_stalled_witness :
    (enterLoop tick1kHz 1000).pc = .loopTop
      ∧ (cycle tick1kHz (reading 1000, reading 1002) (enterLoop tick1kHz 1000)).miss = true
      ∧ (∀ x ∈ [reading 1500, reading 2000, reading 90000], x.button = true)
      ∧ (pressed 90010).button = false
      ∧ (run tick1kHz (reading 1002 :: [reading 1500, reading 2000, reading 90000]
            ++ [pressed 90010])
          (cycle tick1kHz (reading 1000, reading 1002) (enterLoop tick1kHz 1000))).conversions
          = (cycle tick1kHz (reading 1000, reading 1002) (enterLoop tick1kHz 1000)).conversions :=
  ⟨rfl, by decide, by decide, rfl,
    (no_conversion_while_stalled tick1kHz (enterLoop tick1kHz 1000)
      (reading 1000, reading 1002) (reading 1002)
      [reading 1500, reading 2000, reading 90000] (pressed 90010)
      rfl (by decide) (by decide) rfl).2.2.2.1⟩

/-- C6: let a pass from the top of the loop with any deadline end in a miss, let the
button read high for any number of polls and then low, and let `eR.systime` be the
tick read by the statement after the poll loop.  Then the deadline becomes that tick
(a value in which the missed deadline does not occur), no conversion was started
since the miss, and the next pass ends with deadline `tick + loop_time` and exactly
one more `adcStartConversion` call than at the miss. -/
theorem resync_to_current_tick (cfg : Config) (s : MainState) (e : Env × Env)
    (e0 : Env) (es : List Env) (eAck eR : Env) (eN : Env × Env)
    (h : s.pc = .loopTop) (hmiss : (cycle cfg e s).miss = true)
    (hall : ∀ x ∈ es, x.button = true) (hack : eAck.button = false) :
    (run cfg (e0 :: es ++ [eAck, eR]) (cycle cfg e s)).pc = .loopTop
      ∧ (run cfg (e0 :: es ++ [eAck, eR]) (cycle cfg e s)).deadline
          = eR.systime % 2 ^ cfg.w
      ∧ (run cfg (e0 :: es ++ [eAck, eR]) (cycle cfg e s)).conversions
          = (cycle cfg e s).conversions
      ∧ (cycle cfg eN (run cfg (e0 :: es ++ [eAck, eR]) (cycle cfg e s))).deadline
          = systime_add cfg.w (eR.systime % 2 ^ cfg.w) (loop_time cfg)
      ∧ (cycle cfg eN (run cfg (e0 :: es ++ [eAck, eR]) (cycle cfg e s))).conversions
          = (cycle cfg e s).conversions + 1 := by
  have hs : ¬ (0 < sleep_time cfg (systime_add cfg.w s.deadline (loop_time cfg)) e.2.systime
      ∧ sleep_time cfg (systime_add cfg.w s.deadline (loop_time cfg)) e.2.systime
          < loop_time cfg) := by
    intro hs
    rw [(cycle_miss_false cfg e s h).2 hs] at hmiss
    exact Bool.noConfusion hmiss
  have hpc : (cycle cfg e s).pc = .report := by rw [cycle_miss cfg e s h hs]
  have hsplit : e0 :: es ++ [eAck, eR] = (e0 :: es ++ [eAck]) ++ [eR] := by simp
  have hrun : run cfg (e0 :: es ++ [eAck, eR]) (cycle cfg e s) =
      { cycle cfg e s with
        writes := (cycle cfg e s).writes ++
          [⟨"loop time was: %d us\r\n", [cfg.rtc2us (cycle cfg e s).dt]⟩,
           ⟨"Press button to continue.\r\n", []⟩]
        pollSleeps := (cycle cfg e s).pollSleeps + es.length
        deadline := eR.systime % 2 ^ cfg.w
        pc := .loopTop } := by
    rw [hsplit, run_append, run_stall_ack cfg e0 es eAck _ hpc hall hack]
    simp only [run]
    rw [step_resync _ _ _ rfl]
  rw [hrun]
  refine ⟨rfl, rfl, rfl, ?_, ?_⟩
  · rw [(deadline_step_aux cfg eN _ rfl).1]
  · rw [(deadline_step_aux cfg eN _ rfl).2]

/-- Witness for C6: period 10 ticks with 16-bit ticks, a miss at deadline 1010 (tick
1020 at the decision), a stall of three polls, the button seen low, the tick 40000
read at the resynchronisation, then one more pass. -/
theorem resync_to_current_tick_witness :
    (enterLoop tick10kHz 1000).pc = .loopTop
      ∧ (cycle tick10kHz (reading 1000, reading 1020) (enterLoop tick10kHz 1000)).miss = true
      ∧ (∀ x ∈ [reading 1500, reading 2000, reading 39990], x.button = true)
      ∧ (pressed 39999).button = false
      ∧ (cycle tick10kHz (reading 40000, reading 40001)
          (run tick10kHz (reading 1020 :: [reading 1500, reading 2000, reading 39990]
              ++ [pressed 39999, reading 40000])
            (cycle tick10kHz (reading 1000, reading 1020) (enterLoop tick10kHz 1000)))).deadline
          = 40010
      ∧ (cycle tick10kHz (reading 40000, reading 40001)
          (run tick10kHz (reading 1020 :: [reading 1500, reading 2000, reading 39990]
              ++ [pressed 39999, reading 40000])
            (cycle tick10kHz (reading 1000, reading 1020) (enterLoop tick10kHz 1000)))).conversions
          = 2 :=
  ⟨rfl, by decide, by decide, rfl,
    (resync_to_current_tick tick10kHz (enterLoop tick10kHz 1000)
      (reading 1000, reading 1020) (reading 1020)
      [reading 1500, reading 2000, reading 39990] (pressed 39999) (reading 40000)
      (reading 40000, reading 40001) rfl (by decide) (by decide) rfl).2.2.2.1,
    (resync_to_current_tick tick10kHz (enterLoop tick10kHz 1000)
      (reading 1000, reading 1020) (reading 1020)
      [reading 1500, reading 2000, reading 39990] (pressed 39999) (reading 40000)
      (reading 40000, reading 40001) rfl (by decide) (by decide) rfl).2.2.2.2⟩

/-- C9 fails on the main thread: with the USB neither active nor ready at every
reading, a first pass that misses (period 1 tick, tick 1002 at the decision) is
followed by two `chprintf` calls on `SDU1`, while the reporting task given the same
USB state and both flags writes nothing. -/
theorem main_writes_when_not_ready :
    transportReady (reading 1002).usbActive (reading 1002).sduReady = false
      ∧ (run tick1kHz [reading 1000, reading 1002, reading 1002]
          (enterLoop tick1kHz 1000)).writes
          = [⟨"loop time was: %d us\r\n", [0]⟩, ⟨"Press button to continue.\r\n", []⟩]
      ∧ SerialThread_react (reading 1002).usbActive (reading 1002).sduReady
          (evt_adc_error ||| evt_adc_complete) (fun _ => 0) [] = [] := by
  decide

/-! ## Event hand-off and reporting task -/

/-- C7: let the reporting task have a registered listener and let a wait have just
returned.  For every nonempty sequence of ADC interrupts (completion or error
callbacks) that follows, the next wait returns exactly the OR of the flags the
callbacks raised: `evt_adc_complete` alone when only completions fired,
`evt_adc_error` alone when only errors fired, both in one call when both fired; and
the wait after that finds nothing pending and blocks. -/
theorem wait_returns_raised_flags (ch0 ch1 : EventChannel) (m0 : Nat) (is : List AdcIsr)
    (hreg : ch0.registered = true)
    (hprev : chEvtWaitAny ALL_EVENTS ch0 = some (m0, ch1)) (hne : is ≠ []) :
    ∃ ch2 : EventChannel,
      chEvtWaitAny ALL_EVENTS (fireAll is ch1) = some (raisedFlags is, ch2)
        ∧ chEvtWaitAny ALL_EVENTS ch2 = none
        ∧ ((∀ i ∈ is, i = AdcIsr.complete) → raisedFlags is = evt_adc_complete)
        ∧ ((∀ i ∈ is, i = AdcIsr.error) → raisedFlags is = evt_adc_error)
        ∧ (AdcIsr.complete ∈ is → AdcIsr.error ∈ is →
            raisedFlags is = evt_adc_complete ||| evt_adc_error) := by
  have h1 : ch1 = { ch0 with pending := ch0.pending ^^^ (ch0.pending &&& ALL_EVENTS) } := by
    unfold chEvtWaitAny at hprev
    split at hprev
    · exact Option.noConfusion hprev
    · injection hprev with hp
      exact (congrArg Prod.snd hp).symm
  have hreg1 : ch1.registered = true := by rw [h1]; exact hreg
  have hp1 : ch1.pending &&& ALL_EVENTS = 0 := by rw [h1]; exact xor_and_mask _ _
  have hsel : (ch1.pending ||| raisedFlags is) &&& ALL_EVENTS = raisedFlags is := by
    rw [or_and_mask _ _ _ hp1, raisedFlags_and_all]
  have hnz : raisedFlags is ≠ 0 := raisedFlags_ne_zero is hne
  refine ⟨{ ch1 with pending := (ch1.pending ||| raisedFlags is) ^^^ raisedFlags is },
    ?_, ?_, ?_, ?_, ?_⟩
  · rw [fireAll_registered is ch1 hreg1]
    simp only [chEvtWaitAny, hsel, if_neg hnz]
  · simp only [chEvtWaitAny]
    rw [if_pos]
    have := xor_and_mask (ch1.pending ||| raisedFlags is) ALL_EVENTS
    rw [hsel] at this
    exact this
  · intro hall
    have hc : AdcIsr.complete ∈ is := by
      cases is with
      | nil => exact absurd rfl hne
      | cons i is => rw [hall i (List.mem_cons_self _ _)]; exact List.mem_cons_self _ _
    have he : AdcIsr.error ∉ is := fun hm => AdcIsr.noConfusion (hall _ hm)
    rw [raisedFlags_eq]
    simp only [hc, he, if_true, if_false]; decide
  · intro hall
    have he : AdcIsr.error ∈ is := by
      cases is with
      | nil => exact absurd rfl hne
      | cons i is => rw [hall i (List.mem_cons_self _ _)]; exact List.mem_cons_self _ _
    have hc : AdcIsr.complete ∉ is := fun hm => AdcIsr.noConfusion (hall _ hm)
    rw [raisedFlags_eq]
    simp only [hc, he, if_true, if_false]; decide
  · intro hc he
    rw [raisedFlags_eq]
    simp only [hc, he, if_true]; decide

/-- Witness for C7: a listener registered on a fresh source, one completion consumed
by a first wait, then completion, error, completion before the next wait, which
returns both flags; the wait after it blocks. -/
theorem wait_returns_raised_flags_witness :
    (adccallback (chEvtRegisterMask chEvtObjectInit
        (evt_adc_error ||| evt_adc_complete))).registered = true
      ∧ chEvtWaitAny ALL_EVENTS (adccallback (chEvtRegisterMask chEvtObjectInit
          (evt_adc_error ||| evt_adc_complete))) = some (1, ⟨true, 0⟩)
      ∧ [AdcIsr.complete, AdcIsr.error, AdcIsr.complete] ≠ []
      ∧ ∃ ch2 : EventChannel,
          chEvtWaitAny ALL_EVENTS
              (fireAll [AdcIsr.complete, AdcIsr.error, AdcIsr.complete] ⟨true, 0⟩)
            = some (raisedFlags [AdcIsr.complete, AdcIsr.error, AdcIsr.complete], ch2)
          ∧ chEvtWaitAny ALL_EVENTS ch2 = none :=
  ⟨by decide, by decide, by decide,
    (wait_returns_raised_flags
      (adccallback (chEvtRegisterMask chEvtObjectInit (evt_adc_error ||| evt_adc_complete)))
      ⟨true, 0⟩ 1 [AdcIsr.complete, AdcIsr.error, AdcIsr.complete]
      (by decide) (by decide) (by decide)).imp fun _ hch => ⟨hch.1, hch.2.1⟩⟩

end Adc
